import Mathlib

/-!
Verification of the dish-geometry / grid-planning core of the A1_manager
repository, as a shallow embedding in Lean 4.

Machine reals (Python floats) are modelled by exact rationals `ℚ`; the
source's arithmetic is translated operation by operation.  Fallible code
(Python `raise`) is modelled with `Option` / `Except`.  Randomness
(`np.random.choice`, the simulated-annealing TSP solver) is passed in as
explicit data with its documented contract stated as hypotheses.
-/

namespace A1Manager

/-! ## Geometry kernel: `dish_manager/dish_utils/geometry_utils.py` -/

/-- A planar point, as used by `find_circle`. -/
structure Pt where
  x : ℚ
  y : ℚ
deriving DecidableEq, Repr

/-- Squared Euclidean distance between two points. -/
def distSq (a b : Pt) : ℚ := (a.x - b.x) ^ 2 + (a.y - b.y) ^ 2

/-- The `denominator` computed in `find_circle`:
`2 * (x1*(y2 - y3) + x2*(y3 - y1) + x3*(y1 - y2))`. -/
def circleDenominator (p1 p2 p3 : Pt) : ℚ :=
  2 * (p1.x * (p2.y - p3.y) + p2.x * (p3.y - p1.y) + p3.x * (p1.y - p2.y))

/-- Collinearity of three planar points: the cross product of
`p2 - p1` and `p3 - p1` vanishes. -/
def collinear3 (p1 p2 p3 : Pt) : Prop :=
  (p2.x - p1.x) * (p3.y - p1.y) - (p2.y - p1.y) * (p3.x - p1.x) = 0

instance (p1 p2 p3 : Pt) : Decidable (collinear3 p1 p2 p3) := by
  unfold collinear3; infer_instance

/-- Embedding of `find_circle` (geometry_utils.py, lines 11-46) over exact
rationals.  The source raises `ValueError` when the denominator is zero;
here that is `none`.  The source returns the center together with
`radius = sqrt(distSq center p1)`; since square roots leave `ℚ`, we return
the center together with the squared radius `distSq center p1`, of which
the source's radius is the square root. -/
def find_circle (p1 p2 p3 : Pt) : Option (Pt × ℚ) :=
  let denom := circleDenominator p1 p2 p3
  if denom = 0 then
    none
  else
    let cx := ((p1.x ^ 2 + p1.y ^ 2) * (p2.y - p3.y) +
               (p2.x ^ 2 + p2.y ^ 2) * (p3.y - p1.y) +
               (p3.x ^ 2 + p3.y ^ 2) * (p1.y - p2.y)) / denom
    let cy := ((p1.x ^ 2 + p1.y ^ 2) * (p3.x - p2.x) +
               (p2.x ^ 2 + p2.y ^ 2) * (p1.x - p3.x) +
               (p3.x ^ 2 + p3.y ^ 2) * (p2.x - p1.x)) / denom
    some (⟨cx, cy⟩, distSq ⟨cx, cy⟩ p1)

/-- Embedding of `compute_optimal_overlap` (geometry_utils.py, lines 48-60).
`np.ceil` on a rational is `Int.ceil` cast back to `ℚ`. -/
def compute_optimal_overlap (window_size : ℚ × ℚ) (well_width well_length : ℚ) :
    ℚ × ℚ :=
  let rectS_in_y := (2 * well_width) / window_size.2
  let rectS_in_x := (2 * well_length) / window_size.1
  let ceiled_rectS_in_y : ℚ := (Int.ceil rectS_in_y : ℤ)
  let ceiled_rectS_in_x : ℚ := (Int.ceil rectS_in_x : ℤ)
  let overlap_y := (ceiled_rectS_in_y - rectS_in_y) / ceiled_rectS_in_y
  let overlap_x := (ceiled_rectS_in_x - rectS_in_x) / ceiled_rectS_in_x
  (overlap_x, overlap_y)

/-- The overlap formula as the specification words it:
`overlap = (n - a/w) / n` with `n = ceil(a/w)`, `a` the axis extent and `w`
the window dimension of that same axis. -/
def specOptimalOverlap (w a : ℚ) : ℚ :=
  ((Int.ceil (a / w) : ℤ) - a / w) / ((Int.ceil (a / w) : ℤ) : ℚ)

/-- Number of windows of size `w` with fractional overlap `o` that the
specification lays along an axis of extent `a`: `floor(a / (w*(1-o)))`. -/
def numWindows (w a o : ℚ) : ℤ := Int.floor (a / (w * (1 - o)))

/-- `n` windows of size `w` laid with overlap `o`, `n = floor(a/(w(1-o)))`,
exactly span the axis `a`: the tiled length `n * w * (1-o)` equals `a`. -/
def spanExact (w a o : ℚ) : Prop := (numWindows w a o : ℚ) * (w * (1 - o)) = a

/-- The single-axis overlap value the source computes from a window-multiple
ratio `r`: `(ceil r - r) / ceil r`. -/
def overlapOfRatio (r : ℚ) : ℚ := ((Int.ceil r : ℤ) - r) / ((Int.ceil r : ℤ) : ℚ)

/-! ## Grid layout: `dish_manager/well_grid/grid_generator.py` -/

/-- Python `int()` on a float: truncation toward zero. -/
def pyInt (q : ℚ) : ℤ := if 0 ≤ q then Int.floor q else Int.ceil q

/-- Embedding of `GridBuilder._define_number_of_rectangles`
(grid_generator.py, lines 23-30):
`num = int(axis) // int(window * (1 - overlap))` per axis.  Python `//` on
integers is floor division, `Int.fdiv`; a zero divisor raises
`ZeroDivisionError`, modelled as `none`. -/
def define_number_of_rectangles (window_size axis_length overlaps : ℚ × ℚ) :
    Option (ℤ × ℤ) :=
  let dx := pyInt (window_size.1 * (1 - overlaps.1))
  let dy := pyInt (window_size.2 * (1 - overlaps.2))
  if dx = 0 ∨ dy = 0 then none
  else some ((pyInt axis_length.1).fdiv dx, (pyInt axis_length.2).fdiv dy)

/-- The per-axis tile count as the specification words it:
`floor(A / (W * (1 - overlap)))`. -/
def specNumRects (w a o : ℚ) : ℤ := Int.floor (a / (w * (1 - o)))

/-! ## Well grids: `well_grid_manager.py` and `well_grid/well_circle.py` -/

/-- Stage coordinate record (`utils/utility_classes.py`, `StageCoord`): a
planar position plus two nullable focus-axis values. -/
structure StageCoord where
  xy : ℚ × ℚ
  ZDrive : Option ℚ := none
  PFSOffset : Option ℚ := none
deriving DecidableEq, Repr

/-- The instance attributes of `WellCircleGrid` consumed by its grid-update
methods (well_circle.py): radius and center of the well, window size,
required corner count, and the framing offset in microns. -/
structure WellCircleProps where
  radius : ℚ
  center : ℚ × ℚ
  window_size : ℚ × ℚ
  n_corners_in : ℕ
  window_center_offset_um : ℚ × ℚ
deriving DecidableEq, Repr

/-- The corner-count defaulting performed by
`WellCircleGrid.unpack_well_properties` (well_circle.py, lines 18-26):
`4 if n_corners_in is None else n_corners_in`. -/
def unpack_n_corners (n_corners_in : Option ℕ) : ℕ :=
  match n_corners_in with
  | none => 4
  | some k => k

/-- Embedding of `WellCircleGrid._is_point_inside_circle`: strict
squared-distance test against the radius. -/
def is_point_inside_circle (p : WellCircleProps) (point_x point_y : ℚ) : Bool :=
  decide ((point_x - p.center.1) ^ 2 + (point_y - p.center.2) ^ 2 < p.radius ^ 2)

/-- The four corners of the candidate rectangle considered by
`WellCircleGrid._is_rectangle_within_circle`. -/
def rect_corners (window_size : ℚ × ℚ) (x_center y_center : ℚ) : List (ℚ × ℚ) :=
  [(x_center + window_size.1 / 2, y_center + window_size.2 / 2),
   (x_center - window_size.1 / 2, y_center + window_size.2 / 2),
   (x_center + window_size.1 / 2, y_center - window_size.2 / 2),
   (x_center - window_size.1 / 2, y_center - window_size.2 / 2)]

/-- Embedding of `WellCircleGrid._is_rectangle_within_circle`
(well_circle.py, lines 63-78): at least `n_corner_in` of the four corners
must pass the inside test. -/
def is_rectangle_within_circle (p : WellCircleProps) (rect_coord : ℚ × ℚ)
    (n_corner_in : ℕ) : Bool :=
  let inside_count := (rect_corners p.window_size rect_coord.1 rect_coord.2).countP
    (fun corner => is_point_inside_circle p corner.1 corner.2)
  decide (n_corner_in ≤ inside_count)

/-- Embedding of `WellCircleGrid.update_well_grid` (well_circle.py, lines
46-60): the candidate center `(x, y)`, shifted by the framing offset
(`+` on x, `-` on y), is inserted at key `count` when the corner test
passes, and `count` is incremented; otherwise nothing changes.  The
mutated dict is modelled as an association list returned with the new
count. -/
def circle_update_well_grid (p : WellCircleProps) (well_grid : List (ℕ × StageCoord))
    (temp_point : StageCoord) (count : ℕ) (x y : ℚ) :
    List (ℕ × StageCoord) × ℕ :=
  if is_rectangle_within_circle p (x, y) p.n_corners_in then
    let adjusted_x := x + p.window_center_offset_um.1
    let adjusted_y := y - p.window_center_offset_um.2
    (well_grid ++ [(count, { temp_point with xy := (adjusted_x, adjusted_y) })], count + 1)
  else
    (well_grid, count)

/-- Inner recursion of `WellGridManager._build_well_grid`
(well_grid_manager.py, lines 135-144): for the `i`-th x coordinate the y
coordinates are traversed forward when `i` is even and reversed when `i`
is odd, threading the `(well_grid, count)` state through the abstract
`_update_well_grid` step `upd`. -/
def build_well_grid_aux
    (upd : List (ℕ × StageCoord) → ℕ → ℚ → ℚ → List (ℕ × StageCoord) × ℕ)
    (y_coords : List ℚ) :
    List ℚ → ℕ → List (ℕ × StageCoord) × ℕ → List (ℕ × StageCoord) × ℕ
  | [], _, st => st
  | x :: xs, i, st =>
    let y_iterable := if i % 2 = 0 then y_coords else y_coords.reverse
    let st2 := y_iterable.foldl (fun s y => upd s.1 s.2 x y) st
    build_well_grid_aux upd y_coords xs (i + 1) st2

/-- Embedding of `WellGridManager._build_well_grid`: start from the empty
grid and count `0`, outer loop over `x_coords`. -/
def build_well_grid
    (upd : List (ℕ × StageCoord) → ℕ → ℚ → ℚ → List (ℕ × StageCoord) × ℕ)
    (x_coords y_coords : List ℚ) : List (ℕ × StageCoord) :=
  (build_well_grid_aux upd y_coords x_coords 0 ([], 0)).1

/-- The serpentine visiting order as the specification describes it:
primary axis as the outer loop, secondary axis forward on even outer
steps and reversed on odd ones. -/
def serp_aux (y_coords : List ℚ) : List ℚ → ℕ → List (ℚ × ℚ)
  | [], _ => []
  | x :: xs, i =>
    ((if i % 2 = 0 then y_coords else y_coords.reverse).map (fun y => (x, y))) ++
      serp_aux y_coords xs (i + 1)

/-- The full serpentine candidate sequence for given axis coordinates. -/
def serpentine_candidates (x_coords y_coords : List ℚ) : List (ℚ × ℚ) :=
  serp_aux y_coords x_coords 0

/-- The per-candidate effect of `WellCircleGrid.update_well_grid` as a
filter: `some` of the inserted point when the corner test passes, `none`
otherwise. -/
def circle_accept_point (p : WellCircleProps) (temp_point : StageCoord)
    (c : ℚ × ℚ) : Option StageCoord :=
  if is_rectangle_within_circle p c p.n_corners_in then
    some { temp_point with
           xy := (c.1 + p.window_center_offset_um.1,
                  c.2 - p.window_center_offset_um.2) }
  else none

/-! ## FOV sampling: `randomise_fov` (geometry_utils.py, lines 63-79) -/

/-- Embedding of `randomise_fov`.  The grid with dense keys `0..m-1` is the
list `well_grid` (key = position).  Its two sources of randomness are
passed in as data: `random_indices` stands for the sorted draw
`np.random.choice(range(m), size=N, replace=False)` and `sorted_indices`
for the tour returned by `solve_tsp_simulated_annealing`, a permutation of
`range N`.  `np.random.choice` raises `ValueError` when the requested size
exceeds the population, modelled as `none`. -/
def randomise_fov (well_grid : List StageCoord) (numb_field_view : ℕ)
    (random_indices sorted_indices : List ℕ) : Option (List (ℕ × StageCoord)) :=
  if numb_field_view ≤ well_grid.length then
    let points_lst := random_indices.filterMap (fun i => well_grid.get? i)
    let sorted_points := sorted_indices.filterMap (fun i => points_lst.get? i)
    some (List.enum sorted_points)
  else none

/-! ## Dish calibration caching: `dish_manager/dish_calib_manager.py` -/

/-- Embedding of `DishCalibManager._filter_wells` (lines 94-97): the dict
comprehension keeping, in stored order, the wells named in the
selection. -/
def filter_wells {α : Type} (well_selection : List String)
    (dish_measurements : List (String × α)) : List (String × α) :=
  dish_measurements.filter (fun p => well_selection.contains p.1)

/-- Observable outcome of one `calibrate_dish` call: the returned map, the
calibration-file content after the call, and whether the dish-specific
`_calibrate_dish` measurement (which prompts the operator) was run. -/
structure CalibOutcome (α : Type) where
  output : List (String × α)
  persisted : Option (List (String × α))
  recalibrated : Bool

/-- Embedding of `DishCalibManager.calibrate_dish` (lines 75-87).  `file`
is the current calibration-file content (`none` when the file does not
exist); `fresh` is the map the abstract `_calibrate_dish(nikon)` would
measure if invoked.  When the file exists and `overwrite` is false the
stored map is loaded and filtered, with no recalibration; otherwise the
fresh map is measured, filtered to the selection, saved and returned. -/
def calibrate_dish {α : Type} (file : Option (List (String × α)))
    (fresh : List (String × α)) (well_selection : List String)
    (overwrite : Bool) : CalibOutcome α :=
  match file, overwrite with
  | some stored, false =>
    ⟨filter_wells well_selection stored, some stored, false⟩
  | _, _ =>
    let filtered := filter_wells well_selection fresh
    ⟨filtered, some filtered, true⟩

/-! ## 96-well plate calibration: `dish_calibration/dish_96well.py` -/

/-- `SETTINGS_96WELL["row_number"]`. -/
def row_number_96well : ℕ := 8

/-- `SETTINGS_96WELL["col_number"]`. -/
def col_number_96well : ℕ := 12

/-- `SETTINGS_96WELL["well_radius"]`, microns. -/
def well_radius_96well : ℚ := 7 / 2 * 1000

/-- `SETTINGS_96WELL["length"]`, microns (center A1 to center A12). -/
def length_96well : ℚ := 99 * 1000

/-- `SETTINGS_96WELL["width"]`, microns (center A1 to center H1). -/
def width_96well : ℚ := 63 * 1000

/-- `string.ascii_uppercase`, of which the first `row_number` letters label
the rows. -/
def ascii_uppercase : List String :=
  ["A", "B", "C", "D", "E", "F", "G", "H", "I", "J", "K", "L", "M",
   "N", "O", "P", "Q", "R", "S", "T", "U", "V", "W", "X", "Y", "Z"]

/-- The name `f"{letter}{well_number}"` given to the well at row `i`,
column `j` (`well_number = j + 1`). -/
def well_name_96 (i j : ℕ) : String :=
  (ascii_uppercase.getD i "") ++ toString (j + 1)

/-- The center computed by `Dish96well._calibrate_dish` (lines 42-64) for
the well at row `i` and column `j`, from the prompted top-left center
`(x_tl, y_tl)`:
`(x_tl - (length/(col_number-1))*j, y_tl + (width/(row_number-1))*i)`. -/
def well_center_96 (x_tl y_tl : ℚ) (i j : ℕ) : ℚ × ℚ :=
  (x_tl - (length_96well / ((col_number_96well - 1 : ℕ) : ℚ)) * j,
   y_tl + (width_96well / ((row_number_96well - 1 : ℕ) : ℚ)) * i)

/-- The full map built by `Dish96well._calibrate_dish`: well name to
`WellCircleCoord(center, radius)`, rows outer, columns inner. -/
def calibrate_dish_96well (x_tl y_tl : ℚ) : List (String × ((ℚ × ℚ) × ℚ)) :=
  (List.range row_number_96well).flatMap (fun i =>
    (List.range col_number_96well).map (fun j =>
      (well_name_96 i j, (well_center_96 x_tl y_tl i j, well_radius_96well))))

/-! ## DMD correspondence points:
`microscope_hardware/dmd/dmd_calibration_module.py` -/

/-- The point-accumulation loop of `CalibrateFTurret.generate_random_points`
(lines 143-152).  The stream of `(randint, randint)` draws is passed in as
the list `draws`; the Python loop keeps drawing until `count` reaches
`numb_points`, so an exhausted stream (`none`) stands for a run that would
keep drawing.  A draw is kept when its offset x is new among `x_points`
and its offset y new among `y_points`. -/
def gen_points_loop (numb_points start_x start_y : ℤ) :
    List (ℤ × ℤ) → ℤ → List ℤ → List ℤ → Option (List ℤ × List ℤ)
  | [], count, x_points, y_points =>
    if count < numb_points then none else some (x_points, y_points)
  | (dx, dy) :: rest, count, x_points, y_points =>
    if count < numb_points then
      let x := start_x + dx
      let y := start_y + dy
      if x ∉ x_points ∧ y ∉ y_points then
        gen_points_loop numb_points start_x start_y rest (count + 1)
          (x_points ++ [x]) (y_points ++ [y])
      else
        gen_points_loop numb_points start_x start_y rest count x_points y_points
    else some (x_points, y_points)

/-- Embedding of `CalibrateFTurret.generate_random_points` (lines 127-153):
`numb_points % 3 != 0` raises `ValueError` (here `Except.error`) before any
point is generated; otherwise the loop produces the `(y, x)` pairs.
`window_size` only bounds the `randint` draws, which are supplied in
`draws`. -/
def generate_random_points (window_size window_start : ℤ × ℤ)
    (numb_points : ℤ) (draws : List (ℤ × ℤ)) :
    Except String (Option (List (ℤ × ℤ))) :=
  if numb_points % 3 ≠ 0 then
    Except.error "numb_points must be a multiple of 3"
  else
    match gen_points_loop numb_points window_start.1 window_start.2 draws 0 [] [] with
    | none => Except.ok none
    | some (x_points, y_points) => Except.ok (some (y_points.zip x_points))

lemma denom_zero_iff_collinear (p1 p2 p3 : Pt) :
    circleDenominator p1 p2 p3 = 0 ↔ collinear3 p1 p2 p3 := by
  obtain ⟨x1, y1⟩ := p1
  obtain ⟨x2, y2⟩ := p2
  obtain ⟨x3, y3⟩ := p3
  unfold circleDenominator collinear3
  constructor <;> intro h <;> nlinarith [h]

lemma compute_optimal_overlap_eq (wx wy ww wl : ℚ) :
    compute_optimal_overlap (wx, wy) ww wl =
      (overlapOfRatio (2 * wl / wx), overlapOfRatio (2 * ww / wy)) := rfl

lemma overlapOfRatio_mem (r : ℚ) (hr : 0 < r) :
    0 ≤ overlapOfRatio r ∧ overlapOfRatio r < 1 := by
  have hc : (0 : ℤ) < Int.ceil r := Int.ceil_pos.mpr hr
  have hcq : (0 : ℚ) < ((Int.ceil r : ℤ) : ℚ) := by exact_mod_cast hc
  have hle : r ≤ ((Int.ceil r : ℤ) : ℚ) := Int.le_ceil r
  unfold overlapOfRatio
  constructor
  · exact div_nonneg (by linarith) hcq.le
  · rw [div_lt_one hcq]
    linarith

lemma spanExact_at_opt : spanExact 50 237 (13 / 250) := by
  unfold spanExact numWindows
  norm_num

lemma not_spanExact_below (o : ℚ) (h0 : 0 ≤ o) (h1 : o < 13 / 250) :
    ¬ spanExact 50 237 o := by
  unfold spanExact numWindows
  have hw : (47.4 : ℚ) < 50 * (1 - o) := by norm_num; linarith
  have hw' : 50 * (1 - o) ≤ 50 := by linarith
  have hpos : (0 : ℚ) < 50 * (1 - o) := by linarith
  have hfl : Int.floor ((237 : ℚ) / (50 * (1 - o))) = 4 := by
    rw [Int.floor_eq_iff]
    constructor
    · rw [le_div_iff₀ hpos]
      push_cast
      linarith
    · rw [div_lt_iff₀ hpos]
      push_cast
      norm_num
      linarith
  rw [hfl]
  intro hcontra
  push_cast at hcontra
  linarith

lemma compute_optimal_overlap_50_237 :
    compute_optimal_overlap (50, 50) 237 237 = (13 / 250, 13 / 250) := by
  rw [compute_optimal_overlap_eq]
  unfold overlapOfRatio
  rw [show Int.ceil ((2 : ℚ) * 237 / 50) = 10 from by norm_num [Int.ceil_eq_iff]]
  norm_num

/-- C1, counterexample: the claim states that the overlap computed for the
x axis equals `(n - ax/wx)/n` with `n = ceil(ax/wx)`.  At window
`(wx, wy) = (2, 2)` and axis extents `(ax, ay) = (9, 9)` the code returns
overlap `0` for the x axis (it works with the doubled ratio `2*9/2 = 9`,
already an integer), while the claimed formula gives
`(ceil 4.5 - 4.5)/ceil 4.5 = 1/10`. -/
theorem C1_counterexample :
    (compute_optimal_overlap (2, 2) 9 9).1 = 0 ∧
    specOptimalOverlap 2 9 = 1 / 10 ∧ (0 : ℚ) ≠ 1 / 10 := by
  refine ⟨?_, ?_, by norm_num⟩
  · rw [compute_optimal_overlap_eq]
    unfold overlapOfRatio
    rw [show Int.ceil ((2 : ℚ) * 9 / 2) = 9 from by norm_num [Int.ceil_eq_iff]]
    norm_num
  · unfold specOptimalOverlap
    rw [show Int.ceil ((9 : ℚ) / 2) = 5 from by norm_num [Int.ceil_eq_iff]]
    norm_num

/-- C1 (amended): for positive window dimensions `(wx, wy)` and positive
extents `(ax, ay)` passed as `(well_width, well_length)`,
`compute_optimal_overlap` returns, per axis, `(ceil r - r)/ceil r` where the
ratio `r` uses twice the given extent and the axes crossed
(`r = 2*ay/wx` for the x component, `r = 2*ax/wy` for the y component);
each returned overlap lies in `[0, 1)`; at window `(50, 50)` and extents
`(237, 237)` the returned overlap is `13/250 = 0.052` on both axes, and it
is the minimum overlap `o` for which `floor(237/(50*(1-o)))` windows laid
with overlap `o` exactly span the axis. -/
theorem C1_optimal_overlap (wx wy ax ay : ℚ)
    (hwx : 0 < wx) (hwy : 0 < wy) (hax : 0 < ax) (hay : 0 < ay) :
    compute_optimal_overlap (wx, wy) ax ay =
      (overlapOfRatio (2 * ay / wx), overlapOfRatio (2 * ax / wy)) ∧
    (0 ≤ (compute_optimal_overlap (wx, wy) ax ay).1 ∧
      (compute_optimal_overlap (wx, wy) ax ay).1 < 1) ∧
    (0 ≤ (compute_optimal_overlap (wx, wy) ax ay).2 ∧
      (compute_optimal_overlap (wx, wy) ax ay).2 < 1) ∧
    compute_optimal_overlap (50, 50) 237 237 = (13 / 250, 13 / 250) ∧
    spanExact 50 237 (13 / 250) ∧
    (∀ o : ℚ, 0 ≤ o → o < 13 / 250 → ¬ spanExact 50 237 o) := by
  refine ⟨compute_optimal_overlap_eq wx wy ax ay, ?_, ?_,
    compute_optimal_overlap_50_237, spanExact_at_opt, not_spanExact_below⟩
  · rw [compute_optimal_overlap_eq]
    exact overlapOfRatio_mem _ (by positivity)
  · rw [compute_optimal_overlap_eq]
    exact overlapOfRatio_mem _ (by positivity)

/-- C1, witness: the amended theorem applied at window `(2, 3)` and
extents `(5, 7)`. -/
theorem C1_witness :
    (0 ≤ (compute_optimal_overlap (2, 3) 5 7).1 ∧
      (compute_optimal_overlap (2, 3) 5 7).1 < 1) ∧
    spanExact 50 237 (13 / 250) :=
  ⟨(C1_optimal_overlap 2 3 5 7 (by norm_num) (by norm_num) (by norm_num)
      (by norm_num)).2.1,
   (C1_optimal_overlap 2 3 5 7 (by norm_num) (by norm_num) (by norm_num)
      (by norm_num)).2.2.2.2.1⟩

/-- C3: over exact rational arithmetic, `find_circle` fails (raises
`ValueError`, modelled as `none`) exactly when the three points are
collinear, and when it succeeds the returned center is exactly equidistant
from all three points, the squared common distance being the returned
squared radius (the source returns its square root as the radius). -/
theorem C3_find_circle (p1 p2 p3 : Pt) :
    (find_circle p1 p2 p3 = none ↔ collinear3 p1 p2 p3) ∧
    (∀ c rsq, find_circle p1 p2 p3 = some (c, rsq) →
      distSq c p1 = rsq ∧ distSq c p2 = rsq ∧ distSq c p3 = rsq) := by
  by_cases hd : circleDenominator p1 p2 p3 = 0
  · unfold find_circle
    rw [if_pos hd]
    refine ⟨⟨fun _ => (denom_zero_iff_collinear p1 p2 p3).mp hd, fun _ => rfl⟩, ?_⟩
    intro c rsq h
    exact absurd h (by simp)
  · constructor
    · unfold find_circle
      rw [if_neg hd]
      constructor
      · intro h; exact absurd h (by simp)
      · intro h
        exact absurd ((denom_zero_iff_collinear p1 p2 p3).mpr h) hd
    · intro c rsq h
      unfold find_circle at h
      rw [if_neg hd] at h
      simp only [Option.some.injEq, Prod.mk.injEq] at h
      obtain ⟨hc, hr⟩ := h
      subst hc hr
      obtain ⟨x1, y1⟩ := p1
      obtain ⟨x2, y2⟩ := p2
      obtain ⟨x3, y3⟩ := p3
      unfold circleDenominator at hd ⊢
      refine ⟨rfl, ?_, ?_⟩ <;>
      · unfold distSq
        simp only
        field_simp
        ring

/-- C3, witness: the theorem applied to the concrete non-collinear points
`(0,0)`, `(2,0)`, `(0,2)`, whose circumcenter is `(1,1)` with squared
radius `2`. -/
theorem C3_witness :
    distSq ⟨1, 1⟩ ⟨0, 0⟩ = 2 ∧ distSq ⟨1, 1⟩ ⟨2, 0⟩ = 2 ∧
    distSq ⟨1, 1⟩ ⟨0, 2⟩ = 2 :=
  (C3_find_circle ⟨0, 0⟩ ⟨2, 0⟩ ⟨0, 2⟩).2 ⟨1, 1⟩ 2
    (by norm_num [find_circle, circleDenominator, distSq])

lemma floor_div_int_of_pos (a : ℚ) (k : ℤ) (hk : 0 < k) :
    Int.floor (a / (k : ℚ)) = Int.floor a / k := by
  have hkq : (0 : ℚ) < (k : ℚ) := by exact_mod_cast hk
  apply le_antisymm
  · rw [Int.le_ediv_iff_mul_le hk, Int.le_floor]
    push_cast
    calc ((Int.floor (a / (k : ℚ)) : ℤ) : ℚ) * (k : ℚ)
        ≤ (a / (k : ℚ)) * (k : ℚ) :=
          mul_le_mul_of_nonneg_right (Int.floor_le _) hkq.le
      _ = a := by field_simp
  · rw [Int.le_floor]
    have h1 : Int.floor a / k * k ≤ Int.floor a := Int.ediv_mul_le _ hk.ne'
    have h1q : ((Int.floor a / k : ℤ) : ℚ) * (k : ℚ) ≤ ((Int.floor a : ℤ) : ℚ) := by
      exact_mod_cast h1
    rw [le_div_iff₀ hkq]
    exact h1q.trans (Int.floor_le a)

lemma pyInt_intCast (k : ℤ) : pyInt (k : ℚ) = k := by
  unfold pyInt
  split <;> simp

lemma pyInt_of_nonneg (q : ℚ) (hq : 0 ≤ q) : pyInt q = Int.floor q := by
  unfold pyInt
  rw [if_pos hq]

/-- C2, counterexample: with window `(11, 11)`, axis extents `(99, 99)` and
overlap `1/10` on both axes, `W*(1-o) = 9.9 > 0`, the code truncates the
divisor to `int(9.9) = 9` and computes `99 // 9 = 11` tiles per axis, while
the claimed `floor(99 / 9.9)` is `10`. -/
theorem C2_counterexample :
    define_number_of_rectangles (11, 11) (99, 99) (1 / 10, 1 / 10) =
      some (11, 11) ∧
    specNumRects 11 99 (1 / 10) = 10 ∧ (11 : ℤ) ≠ 10 := by
  refine ⟨?_, ?_, by norm_num⟩
  · unfold define_number_of_rectangles
    rw [show pyInt ((11 : ℚ) * (1 - 1 / 10)) = 9 from by norm_num [pyInt]]
    rw [show pyInt ((99 : ℚ)) = 99 from by norm_num [pyInt]]
    norm_num
    decide
  · unfold specNumRects
    norm_num

/-- C2 (amended): the code computes, per axis,
`int(A) // int(W*(1-o))` — both operands truncated to integers before the
floor division (and `int(W*(1-o)) = 0` raises `ZeroDivisionError`).  This
coincides with the claimed `floor(A / (W*(1-o)))` whenever the effective
step `W*(1-o)` is itself a positive integer and `A ≥ 0`, which is the
statement proved here; the counterexample shows the two differ when
`W*(1-o)` is fractional. -/
theorem C2_num_rects (wx wy ax ay ox oy : ℚ) (kx ky : ℤ)
    (hax : 0 ≤ ax) (hay : 0 ≤ ay) (hkx : 0 < kx) (hky : 0 < ky)
    (hwx : wx * (1 - ox) = (kx : ℚ)) (hwy : wy * (1 - oy) = (ky : ℚ)) :
    define_number_of_rectangles (wx, wy) (ax, ay) (ox, oy) =
      some (specNumRects wx ax ox, specNumRects wy ay oy) := by
  unfold define_number_of_rectangles
  simp only [hwx, hwy, pyInt_intCast]
  rw [if_neg (by push_neg; exact ⟨hkx.ne', hky.ne'⟩)]
  unfold specNumRects
  rw [hwx, hwy, floor_div_int_of_pos ax kx hkx, floor_div_int_of_pos ay ky hky,
    pyInt_of_nonneg ax hax, pyInt_of_nonneg ay hay,
    Int.fdiv_eq_ediv _ hkx.le, Int.fdiv_eq_ediv _ hky.le]

/-- C2, witness: the amended theorem applied at window `(10, 10)`, axis
extents `(12, 12)` and overlap `1/2`, where the step `10*(1-1/2) = 5` is a
positive integer. -/
theorem C2_witness :
    define_number_of_rectangles (10, 10) (12, 12) (1 / 2, 1 / 2) =
      some (specNumRects 10 12 (1 / 2), specNumRects 10 12 (1 / 2)) :=
  C2_num_rects 10 10 12 12 (1 / 2) (1 / 2) 5 5 (by norm_num) (by norm_num)
    (by norm_num) (by norm_num) (by norm_num) (by norm_num)

lemma circle_update_eq_accept (p : WellCircleProps) (temp : StageCoord)
    (g : List (ℕ × StageCoord)) (c : ℕ) (x y : ℚ) :
    circle_update_well_grid p g temp c x y =
      match circle_accept_point p temp (x, y) with
      | some pt => (g ++ [(c, pt)], c + 1)
      | none => (g, c) := by
  unfold circle_update_well_grid circle_accept_point
  split <;> simp

lemma foldl_circle_update (p : WellCircleProps) (temp : StageCoord) (x : ℚ) :
    ∀ (L : List ℚ) (g : List (ℕ × StageCoord)) (c : ℕ),
    L.foldl (fun s y => circle_update_well_grid p s.1 temp s.2 x y) (g, c) =
      (g ++ List.enumFrom c ((L.map (fun y => (x, y))).filterMap
              (circle_accept_point p temp)),
       c + ((L.map (fun y => (x, y))).filterMap
              (circle_accept_point p temp)).length) := by
  intro L
  induction L with
  | nil => intro g c; simp
  | cons y ys ih =>
    intro g c
    rw [List.foldl_cons]
    show List.foldl _ (circle_update_well_grid p g temp c x y) ys = _
    rw [circle_update_eq_accept]
    cases hacc : circle_accept_point p temp (x, y) with
    | some pt =>
      simp only [ih]
      simp [hacc, List.filterMap_cons, List.enumFrom_cons, List.append_assoc]
      omega
    | none =>
      simp only [ih]
      simp [hacc, List.filterMap_cons]

lemma build_aux_eq (p : WellCircleProps) (temp : StageCoord) (ys : List ℚ) :
    ∀ (xs : List ℚ) (i : ℕ) (g : List (ℕ × StageCoord)) (c : ℕ),
    build_well_grid_aux (fun g c x y => circle_update_well_grid p g temp c x y)
        ys xs i (g, c) =
      (g ++ List.enumFrom c ((serp_aux ys xs i).filterMap
              (circle_accept_point p temp)),
       c + ((serp_aux ys xs i).filterMap (circle_accept_point p temp)).length) := by
  intro xs
  induction xs with
  | nil => intro i g c; simp [build_well_grid_aux, serp_aux]
  | cons x rest ih =>
    intro i g c
    unfold build_well_grid_aux serp_aux
    simp only [foldl_circle_update p temp x]
    rw [ih]
    simp [List.filterMap_append, List.enumFrom_append, List.append_assoc]
    omega

lemma build_well_grid_eq (p : WellCircleProps) (temp : StageCoord)
    (xs ys : List ℚ) :
    build_well_grid (fun g c x y => circle_update_well_grid p g temp c x y) xs ys =
      List.enum ((serpentine_candidates xs ys).filterMap
        (circle_accept_point p temp)) := by
  unfold build_well_grid serpentine_candidates
  rw [build_aux_eq]
  simp [List.enum]

lemma quarter_bound (u v : ℚ) (hu : 0 ≤ u) (hv : 0 ≤ v)
    (h : (u + 50) ^ 2 + (v + 50) ^ 2 < 1000 ^ 2) :
    u ^ 2 + v ^ 2 ≤ 950 ^ 2 := by
  rcases le_or_lt 925 (u + v) with h1 | h1
  · nlinarith
  · nlinarith [mul_nonneg hu hv]

lemma center_in_shrunk_circle (u v : ℚ)
    (h1 : (u + 50) ^ 2 + (v + 50) ^ 2 < 1000 ^ 2)
    (h2 : (u - 50) ^ 2 + (v + 50) ^ 2 < 1000 ^ 2)
    (h3 : (u + 50) ^ 2 + (v - 50) ^ 2 < 1000 ^ 2)
    (h4 : (u - 50) ^ 2 + (v - 50) ^ 2 < 1000 ^ 2) :
    u ^ 2 + v ^ 2 ≤ 950 ^ 2 := by
  rcases le_or_lt 0 u with hu | hu <;> rcases le_or_lt 0 v with hv | hv
  · exact quarter_bound u v hu hv h1
  · have := quarter_bound u (-v) hu (by linarith) (by nlinarith [h3])
    nlinarith [this]
  · have := quarter_bound (-u) v (by linarith) hv (by nlinarith [h2])
    nlinarith [this]
  · have := quarter_bound (-u) (-v) (by linarith) (by linarith) (by nlinarith [h4])
    nlinarith [this]

lemma accept_all_corners (p : WellCircleProps) (x y : ℚ)
    (hn : p.n_corners_in = 4)
    (hacc : is_rectangle_within_circle p (x, y) p.n_corners_in = true) :
    ∀ q ∈ rect_corners p.window_size x y,
      is_point_inside_circle p q.1 q.2 = true := by
  rw [← List.countP_eq_length]
  unfold is_rectangle_within_circle at hacc
  simp only [decide_eq_true_eq] at hacc
  have hlen : (rect_corners p.window_size x y).length = 4 := by
    unfold rect_corners; rfl
  rw [hlen]
  have hle := List.countP_le_length
    (fun (q : ℚ × ℚ) => is_point_inside_circle p q.1 q.2)
    (l := rect_corners p.window_size x y)
  rw [hn] at hacc
  rw [hlen] at hle
  omega

/-- C4: for a circular well of radius `1000` centered at `(cx, cy)`, window
size `(100, 100)`, corner count defaulted (`n_corners_in = None`, hence 4)
and zero framing offset, every point inserted into the well grid - over any
axis coordinate lists, hence in particular over the overlap-0 layout - has
squared distance at most `(1000 - 50)^2` from the center.  Moreover a
candidate is accepted only when at least `n_corners_in` of its four corners
have squared distance to the center at most the squared radius, and an
unsupplied corner count defaults to 4. -/
theorem C4_circle_grid_containment (cx cy : ℚ) (xs ys : List ℚ)
    (temp : StageCoord) :
    unpack_n_corners none = 4 ∧
    (∀ (p : WellCircleProps) (x y : ℚ),
      is_rectangle_within_circle p (x, y) p.n_corners_in = true →
        p.n_corners_in ≤ (rect_corners p.window_size x y).countP
          (fun q => decide ((q.1 - p.center.1) ^ 2 + (q.2 - p.center.2) ^ 2 ≤
            p.radius ^ 2))) ∧
    (∀ k pt, (k, pt) ∈ build_well_grid
        (fun g c x y => circle_update_well_grid
          ⟨1000, (cx, cy), (100, 100), unpack_n_corners none, (0, 0)⟩ g temp c x y)
        xs ys →
      (pt.xy.1 - cx) ^ 2 + (pt.xy.2 - cy) ^ 2 ≤ 950 ^ 2) := by
  refine ⟨rfl, ?_, ?_⟩
  · intro p x y hacc
    unfold is_rectangle_within_circle at hacc
    simp only [decide_eq_true_eq] at hacc
    refine hacc.trans (List.countP_mono_left ?_)
    intro q _ hq
    unfold is_point_inside_circle at hq
    simp only [decide_eq_true_eq] at hq ⊢
    linarith
  · intro k pt hmem
    set p : WellCircleProps :=
      ⟨1000, (cx, cy), (100, 100), unpack_n_corners none, (0, 0)⟩ with hp
    rw [build_well_grid_eq] at hmem
    have hsnd : pt ∈ (serpentine_candidates xs ys).filterMap
        (circle_accept_point p temp) := by
      have h2 := List.mem_map_of_mem Prod.snd hmem
      rwa [List.enum_map_snd] at h2
    obtain ⟨cand, _, hacc⟩ := List.mem_filterMap.mp hsnd
    unfold circle_accept_point at hacc
    by_cases hin : is_rectangle_within_circle p cand p.n_corners_in = true
    · rw [if_pos hin] at hacc
      have hpt : pt.xy = (cand.1 + 0, cand.2 - 0) := by
        rw [← Option.some_inj.mp hacc]
      have hall := accept_all_corners p cand.1 cand.2 rfl
        (by rwa [show ((cand.1, cand.2) : ℚ × ℚ) = cand from rfl])
      have hc1 := hall _ (by unfold rect_corners; exact List.mem_cons_self _ _)
      have hc2 := hall ((cand.1 - (100:ℚ)/2, cand.2 + (100:ℚ)/2))
        (by unfold rect_corners; simp)
      have hc3 := hall ((cand.1 + (100:ℚ)/2, cand.2 - (100:ℚ)/2))
        (by unfold rect_corners; simp)
      have hc4 := hall ((cand.1 - (100:ℚ)/2, cand.2 - (100:ℚ)/2))
        (by unfold rect_corners; simp)
      unfold is_point_inside_circle at hc1 hc2 hc3 hc4
      simp only [decide_eq_true_eq] at hc1 hc2 hc3 hc4
      rw [hpt]
      have hmain := center_in_shrunk_circle (cand.1 - cx) (cand.2 - cy)
        (by nlinarith [hc1]) (by nlinarith [hc2]) (by nlinarith [hc3])
        (by nlinarith [hc4])
      simpa using hmain
    · rw [if_neg hin] at hacc
      exact absurd hacc (by simp)

/-- C4, witness: the theorem applied to the concrete grid built over
`xs = ys = [0]` for a well centered at the origin; the single candidate
`(0, 0)` is accepted and lies within the shrunk radius. -/
theorem C4_witness :
    (((0:ℚ) + 0) - 0) ^ 2 + (((0:ℚ) - 0) - 0) ^ 2 ≤ 950 ^ 2 :=
  (C4_circle_grid_containment 0 0 [0] [0] ⟨(0, 0), none, none⟩).2.2 0
    ⟨(0 + 0, 0 - 0), none, none⟩
    (by
      simp [build_well_grid, build_well_grid_aux, circle_update_well_grid,
        is_rectangle_within_circle, is_point_inside_circle, rect_corners,
        unpack_n_corners]
      norm_num [List.countP, List.countP.go])

/-- C5: for any circle-well parameters and any axis coordinate lists, the
grid built by `_build_well_grid` with `WellCircleGrid.update_well_grid`
equals the serpentine candidate sequence (outer loop on the primary axis,
secondary axis forward on even steps and reversed on odd ones) filtered by
the containment test and enumerated from `0`; consequently its keys are
exactly `0, 1, ..., m-1` in visiting order, also when candidates are
rejected. -/
theorem C5_serpentine_dense_keys (p : WellCircleProps) (temp : StageCoord)
    (xs ys : List ℚ) :
    build_well_grid (fun g c x y => circle_update_well_grid p g temp c x y)
        xs ys =
      List.enum ((serpentine_candidates xs ys).filterMap
        (circle_accept_point p temp)) ∧
    (build_well_grid (fun g c x y => circle_update_well_grid p g temp c x y)
        xs ys).map Prod.fst =
      List.range ((serpentine_candidates xs ys).filterMap
        (circle_accept_point p temp)).length := by
  refine ⟨build_well_grid_eq p temp xs ys, ?_⟩
  rw [build_well_grid_eq, List.enum_map_fst]

lemma filterMap_get_length (l : List StageCoord) :
    ∀ (idx : List ℕ), (∀ i ∈ idx, i < l.length) →
      (idx.filterMap (fun i => l.get? i)).length = idx.length := by
  intro idx
  induction idx with
  | nil => intro _; simp
  | cons i rest ih =>
    intro h
    rw [List.filterMap_cons]
    have hi : i < l.length := h i (List.mem_cons_self _ _)
    rw [List.get?_eq_get hi]
    simp only [List.length_cons]
    rw [ih (fun j hj => h j (List.mem_cons_of_mem _ hj))]

lemma filterMap_get_range (l : List StageCoord) :
    (List.range l.length).filterMap (fun i => l.get? i) = l := by
  induction l with
  | nil => simp
  | cons a t ih =>
    rw [List.length_cons, List.range_succ_eq_map, List.filterMap_cons,
      List.filterMap_map]
    have h0 : (a :: t).get? 0 = some a := rfl
    rw [h0]
    have hcomp : (fun i => (a :: t).get? i) ∘ Nat.succ = fun i => t.get? i := rfl
    rw [hcomp, ih]

lemma mem_of_mem_filterMap_get (l : List StageCoord) (idx : List ℕ)
    (a : StageCoord) (h : a ∈ idx.filterMap (fun i => l.get? i)) : a ∈ l := by
  obtain ⟨i, _, hget⟩ := List.mem_filterMap.mp h
  exact List.get?_mem hget

/-- C6: for a grid with dense keys `0..m-1`, a draw of `N` distinct indices
below `m` (the contract of `np.random.choice(..., replace=False)`) and a
TSP tour that is a permutation of `range N` (the contract of
`solve_tsp_simulated_annealing`): when `N ≤ m`, `randomise_fov` returns a
mapping whose keys are exactly `0..N-1`, whose `N` values are a permutation
of the chosen subset of the grid's values (so nothing is fabricated and
nothing repeats beyond the draw); when `N > m` it raises (returns
`none`). -/
theorem C6_randomise_fov (well_grid : List StageCoord) (N : ℕ)
    (random_indices sorted_indices : List ℕ)
    (hlen : random_indices.length = N)
    (hmem : ∀ i ∈ random_indices, i < well_grid.length)
    (hnodup : random_indices.Nodup)
    (hperm : sorted_indices.Perm (List.range N)) :
    (N ≤ well_grid.length →
      ∃ out, randomise_fov well_grid N random_indices sorted_indices = some out ∧
        out.map Prod.fst = List.range N ∧
        out.length = N ∧
        (out.map Prod.snd).Perm
          (random_indices.filterMap (fun i => well_grid.get? i)) ∧
        ∀ pt ∈ out.map Prod.snd, pt ∈ well_grid) ∧
    (well_grid.length < N →
      randomise_fov well_grid N random_indices sorted_indices = none) := by
  constructor
  · intro hN
    set points_lst := random_indices.filterMap (fun i => well_grid.get? i)
      with hpts
    have hplen : points_lst.length = N := by
      rw [hpts, filterMap_get_length well_grid random_indices hmem, hlen]
    set sorted_points := sorted_indices.filterMap (fun i => points_lst.get? i)
      with hsp
    have hspperm : sorted_points.Perm points_lst := by
      have h1 : sorted_points.Perm
          ((List.range N).filterMap (fun i => points_lst.get? i)) :=
        hperm.filterMap _
      rw [← hplen] at h1
      rwa [filterMap_get_range points_lst] at h1
    refine ⟨List.enum sorted_points, ?_, ?_, ?_, ?_, ?_⟩
    · unfold randomise_fov
      rw [if_pos hN]
    · rw [List.enum_map_fst, hspperm.length_eq, hplen]
    · rw [List.enum_length, hspperm.length_eq, hplen]
    · rw [List.enum_map_snd]
      exact hspperm
    · rw [List.enum_map_snd]
      intro pt hpt
      exact mem_of_mem_filterMap_get well_grid random_indices pt
        (hspperm.mem_iff.mp hpt)
  · intro hN
    unfold randomise_fov
    rw [if_neg (by omega)]

/-- C6, witness: the theorem applied to a three-point grid with `N = 2`,
draw `[0, 2]` and tour `[1, 0]`. -/
theorem C6_witness :
    ∃ out, randomise_fov
        [⟨(0, 0), none, none⟩, ⟨(1, 0), none, none⟩, ⟨(2, 0), none, none⟩]
        2 [0, 2] [1, 0] = some out ∧
      out.map Prod.fst = List.range 2 ∧
      out.length = 2 ∧
      (out.map Prod.snd).Perm ([0, 2].filterMap (fun i =>
        [(⟨(0, 0), none, none⟩ : StageCoord), ⟨(1, 0), none, none⟩,
         ⟨(2, 0), none, none⟩].get? i)) ∧
      ∀ pt ∈ out.map Prod.snd,
        pt ∈ [(⟨(0, 0), none, none⟩ : StageCoord), ⟨(1, 0), none, none⟩,
              ⟨(2, 0), none, none⟩] :=
  (C6_randomise_fov
    [⟨(0, 0), none, none⟩, ⟨(1, 0), none, none⟩, ⟨(2, 0), none, none⟩]
    2 [0, 2] [1, 0] rfl (by decide) (by decide) (by decide)).1 (by norm_num)

/-- C7: when the calibration file exists and `overwrite` is false,
`calibrate_dish` returns the persisted map filtered to the requested
selection, with no recalibration (hence no operator prompt); consequently
two successive calls with the same selection on an already-calibrated dish
return identical output - whatever a hypothetical recalibration
(`fresh1`, `fresh2`) would have measured - and the second call performs no
recalibration either. -/
theorem C7_calibration_idempotent {α : Type}
    (stored fresh1 fresh2 : List (String × α)) (sel : List String) :
    (calibrate_dish (some stored) fresh1 sel false).output =
      filter_wells sel stored ∧
    (calibrate_dish (some stored) fresh1 sel false).recalibrated = false ∧
    (calibrate_dish (some stored) fresh1 sel false).persisted = some stored ∧
    (calibrate_dish ((calibrate_dish (some stored) fresh1 sel false).persisted)
        fresh2 sel false).output =
      (calibrate_dish (some stored) fresh1 sel false).output ∧
    (calibrate_dish ((calibrate_dish (some stored) fresh1 sel false).persisted)
        fresh2 sel false).recalibrated = false :=
  ⟨rfl, rfl, rfl, rfl, rfl⟩

/-- C10: when no calibration file exists (or `overwrite` is true), only the
computed map filtered to the caller's selection is persisted; a computed
well outside the selection is never written, and a later call with a larger
selection cannot recover it from the file. -/
theorem C10_persist_filtered_only {α : Type}
    (stored fresh fresh2 : List (String × α)) (sel sel2 : List String)
    (w : String) (c c2 : α) (hw : w ∉ sel) :
    (calibrate_dish (none : Option (List (String × α))) fresh sel
        false).persisted = some (filter_wells sel fresh) ∧
    (calibrate_dish (some stored) fresh sel true).persisted =
      some (filter_wells sel fresh) ∧
    (w, c) ∉ filter_wells sel fresh ∧
    (w, c2) ∉ (calibrate_dish (some (filter_wells sel fresh)) fresh2 sel2
        false).output := by
  refine ⟨rfl, rfl, ?_, ?_⟩
  · intro hmem
    rw [filter_wells, List.mem_filter] at hmem
    exact hw (by simpa using hmem.2)
  · intro hmem
    have hsub : (w, c2) ∈ filter_wells sel fresh := by
      have h2 : (w, c2) ∈ filter_wells sel2 (filter_wells sel fresh) := hmem
      rw [filter_wells, List.mem_filter] at h2
      exact h2.1
    rw [filter_wells, List.mem_filter] at hsub
    exact hw (by simpa using hsub.2)

/-- C10, witness: the theorem applied with the computed map
`A1 ↦ 1, B2 ↦ 2`, first selection `["A1"]`, later selection
`["A1", "B2"]`: well `B2` is dropped before saving and a later, larger
selection cannot recover it. -/
theorem C10_witness :
    ((calibrate_dish (none : Option (List (String × ℚ)))
        [("A1", 1), ("B2", 2)] ["A1"] false).persisted =
      some (filter_wells ["A1"] [("A1", 1), ("B2", 2)])) ∧
    (calibrate_dish (some [("A1", (1 : ℚ))]) [("A1", 1), ("B2", 2)] ["A1"]
        true).persisted = some (filter_wells ["A1"] [("A1", 1), ("B2", 2)]) ∧
    ("B2", (2 : ℚ)) ∉ filter_wells ["A1"] [("A1", 1), ("B2", 2)] ∧
    ("B2", (2 : ℚ)) ∉
      (calibrate_dish (some (filter_wells ["A1"] [("A1", 1), ("B2", 2)]))
        [("A1", 1), ("B2", 2), ("C3", 3)] ["A1", "B2"] false).output :=
  C10_persist_filtered_only [("A1", 1)] [("A1", 1), ("B2", 2)]
    [("A1", 1), ("B2", 2), ("C3", 3)] ["A1"] ["A1", "B2"] "B2" 2 2 (by decide)

/-- C8, counterexample: the code's computed center for well H12
(row `i = 7`, column `j = 11`) with top-left center `(0, 0)` is
`(-99000, 63000)` (the column pitch is `length/(col-1) = 99000/11 = 9000`
microns, not `9000/11`), while the claim's concrete value
`(-818.18*11, 1285.71*7) = (-9000, 9000)` differs. -/
theorem C8_counterexample :
    well_center_96 0 0 7 11 = (-99000, 63000) ∧
    (-(9000 / 11 : ℚ) * 11, (9000 / 7 : ℚ) * 7) = ((-9000 : ℚ), (9000 : ℚ)) ∧
    ((-99000 : ℚ), (63000 : ℚ)) ≠ ((-9000 : ℚ), (9000 : ℚ)) := by
  refine ⟨?_, by norm_num, by norm_num⟩
  unfold well_center_96 length_96well width_96well col_number_96well
    row_number_96well
  norm_num

/-- C8 (amended): the well at row `i`, column `j` is placed at
`(x_tl - px*j, y_tl + py*i)` with `px = length/(col_number - 1)` and
`py = width/(row_number - 1)` as claimed, but with the source's constants
both pitches equal `9000` microns (`99000/11` and `63000/7`), so the center
of well H12 (`i = 7`, `j = 11`) from top-left `(0, 0)` is
`(-9000*11, 9000*7) = (-99000, 63000)`. -/
theorem C8_96well_centers (x_tl y_tl : ℚ) (i j : ℕ) :
    well_center_96 x_tl y_tl i j = (x_tl - 9000 * j, y_tl + 9000 * i) ∧
    length_96well / ((col_number_96well - 1 : ℕ) : ℚ) = 9000 ∧
    width_96well / ((row_number_96well - 1 : ℕ) : ℚ) = 9000 ∧
    ("H12", (((-99000 : ℚ), (63000 : ℚ)), well_radius_96well)) ∈
      calibrate_dish_96well 0 0 ∧
    well_name_96 7 11 = "H12" := by
  refine ⟨?_, by norm_num [length_96well, col_number_96well],
    by norm_num [width_96well, row_number_96well], ?_, rfl⟩
  · unfold well_center_96 length_96well width_96well col_number_96well
      row_number_96well
    norm_num
  · have hmem : (well_name_96 7 11,
        (well_center_96 0 0 7 11, well_radius_96well)) ∈
        calibrate_dish_96well 0 0 := by
      unfold calibrate_dish_96well
      simp only [List.mem_flatMap, List.mem_map, List.mem_range]
      exact ⟨7, by norm_num [row_number_96well], 11,
        by norm_num [col_number_96well], rfl⟩
    have hname : well_name_96 7 11 = "H12" := rfl
    have hctr : well_center_96 0 0 7 11 = ((-99000 : ℚ), (63000 : ℚ)) := by
      unfold well_center_96 length_96well width_96well col_number_96well
        row_number_96well
      norm_num
    rwa [hname, hctr] at hmem

/-- C9, counterexample: the claim states `N = 0` is rejected with an error,
but the code's check `numb_points % 3 != 0` passes for `0`, the generation
loop body never runs, and an empty point list is returned. -/
theorem C9_counterexample :
    generate_random_points (100, 100) (0, 0) 0 [] = Except.ok (some []) ∧
    ∀ msg, generate_random_points (100, 100) (0, 0) 0 [] ≠ Except.error msg := by
  constructor
  · rfl
  · intro msg h
    rw [show generate_random_points (100, 100) (0, 0) 0 [] =
      Except.ok (some []) from rfl] at h
    exact absurd h (by simp)

/-- C9 (amended): `generate_random_points` raises exactly when
`numb_points` is not a multiple of 3; the check precedes the generation
loop, so the error is independent of the random draws.  `N = 0` (and any
negative multiple of 3) passes the check instead of being rejected. -/
theorem C9_multiple_of_three (window_size window_start : ℤ × ℤ)
    (numb_points : ℤ) (draws : List (ℤ × ℤ)) :
    (∃ msg, generate_random_points window_size window_start numb_points draws =
        Except.error msg) ↔ numb_points % 3 ≠ 0 := by
  unfold generate_random_points
  by_cases h : numb_points % 3 ≠ 0
  · rw [if_pos h]
    exact ⟨fun _ => h, fun _ => ⟨_, rfl⟩⟩
  · rw [if_neg h]
    constructor
    · intro ⟨msg, heq⟩
      exfalso
      cases hloop : gen_points_loop numb_points window_start.1 window_start.2
          draws 0 [] [] with
      | none => rw [hloop] at heq; exact absurd heq (by simp)
      | some v =>
        rw [hloop] at heq
        obtain ⟨xs, ys⟩ := v
        exact absurd heq (by simp)
    · intro hh
      exact absurd hh h

end A1Manager
